import Mathlib

/-!
Verification of the leaflet map server's rendering core: the
world-to-pixel transform, canvas creation and compositing, request and
tile validation, and cache-key derivation, embedded shallowly from
`src/server/src/RenderEngine.cpp` and `src/server/src/HttpServer.cpp`.

Modelling conventions:
- C++ `double` values are embedded as `ℚ` (exact arithmetic; no claim here
  depends on binary floating-point rounding).
- C++ `int` is embedded as `ℤ`; `size_t` casts wrap modulo `2 ^ 64`;
  `static_cast<uint8_t>` wraps modulo 256.
- byte buffers (`std::vector<uint8_t>`) are `Array ℕ`.
- fallible operations return `Except`: a C++ `return false` path and a
  thrown-and-propagated exception (`std::invalid_argument` out of
  `std::stoi`) are both `Except.error`, with distinct error constructors.
-/

namespace LeafletMap

/-- One character is an ASCII hexadecimal digit (the check the server's
validation loop uses: 0-9, a-f, A-F). -/
def isHexDigit (c : Char) : Bool :=
  (decide ('0' ≤ c) && decide (c ≤ '9')) ||
  (decide ('a' ≤ c) && decide (c ≤ 'f')) ||
  (decide ('A' ≤ c) && decide (c ≤ 'F'))

/-- Numeric value of a hexadecimal digit. -/
def hexVal (c : Char) : ℕ :=
  if '0' ≤ c ∧ c ≤ '9' then c.toNat - '0'.toNat
  else if 'a' ≤ c ∧ c ≤ 'f' then c.toNat - 'a'.toNat + 10
  else if 'A' ≤ c ∧ c ≤ 'F' then c.toNat - 'A'.toNat + 10
  else 0

/-- The whitespace characters `std::stoi` (via `strtol` / `isspace`) skips. -/
def isCppSpace (c : Char) : Bool :=
  c = ' ' || c = '\t' || c = '\n' || c = '\x0b' || c = '\x0c' || c = '\r'

/-- Drop the leading whitespace `strtol` ignores. -/
def skipSpaces : List Char → List Char
  | [] => []
  | c :: cs => if isCppSpace c then skipSpaces cs else c :: cs

/-- Read the optional sign of the subject sequence. -/
def parseSign : List Char → ℤ × List Char
  | [] => (1, [])
  | c :: cs => if c = '+' then (1, cs) else if c = '-' then (-1, cs) else (1, c :: cs)

/-- Strip a `0x` / `0X` prefix when a hexadecimal digit follows; by the
longest-match rule a bare `0x` is instead read as the digit 0. -/
def stripHex0x : List Char → List Char
  | a :: x :: c :: cs =>
      if a = '0' ∧ (x = 'x' ∨ x = 'X') ∧ isHexDigit c then c :: cs
      else a :: x :: c :: cs
  | l => l

/-- Value of a run of hexadecimal digits, most significant first. -/
def hexDigitsVal (l : List Char) : ℕ :=
  l.foldl (fun acc c => 16 * acc + hexVal c) 0

/-- `std::stoi(s, nullptr, 16)`: skip whitespace, read an optional sign and
an optional `0x` prefix, then the longest run of hexadecimal digits; when
that run is empty the call throws `std::invalid_argument`, modelled as
`Except.error`. (The `int` range cannot overflow on the two-character
chunks the engine passes in.) -/
def cppStoi16 (s : String) : Except Unit ℤ :=
  let l1 := (parseSign (skipSpaces s.data)).2
  let sign := (parseSign (skipSpaces s.data)).1
  let ds := (stripHex0x l1).takeWhile isHexDigit
  if ds.isEmpty then Except.error () else Except.ok (sign * (hexDigitsVal ds : ℤ))

/-- `static_cast<uint8_t>` of an `int`: wrap modulo 256. -/
def toByte (i : ℤ) : ℕ := (i % 256).toNat

/-- Geographic bounding box (WGS84 degrees), `BoundingBox` of RenderEngine.h. -/
structure BoundingBox where
  m_dMinX : ℚ := 0
  m_dMinY : ℚ := 0
  m_dMaxX : ℚ := 0
  m_dMaxY : ℚ := 0
deriving DecidableEq, Repr

/-- `BoundingBox::IsValid`. -/
def BoundingBox.IsValid (b : BoundingBox) : Bool :=
  decide (b.m_dMinX < b.m_dMaxX) && decide (b.m_dMinY < b.m_dMaxY)

/-- `BoundingBox::Width`. -/
def BoundingBox.Width (b : BoundingBox) : ℚ := b.m_dMaxX - b.m_dMinX

/-- `BoundingBox::Height`. -/
def BoundingBox.Height (b : BoundingBox) : ℚ := b.m_dMaxY - b.m_dMinY

/-- Per-layer rendering style, `LayerStyle` of RenderEngine.h with its
default member values. -/
structure LayerStyle where
  m_strFillColor : String := "#cccccc"
  m_strStrokeColor : String := "#000000"
  m_nStrokeWidth : ℤ := 1
  m_nOpacity : ℤ := 255
  m_nPointRadius : ℤ := 3
  m_strPointColor : String := "#ff0000"
  m_strLineColor : String := "#0000ff"
  m_nLineWidth : ℤ := 2
deriving DecidableEq, Repr

/-- A render job, `MapRequest` of RenderEngine.h; `std::map` is embedded as
an association list with unique keys looked up by `List.lookup`. -/
structure MapRequest where
  m_bbox : BoundingBox := {}
  m_nWidth : ℤ := 1024
  m_nHeight : ℤ := 768
  m_vecLayers : List String := []
  m_mapStyles : List (String × LayerStyle) := []
  m_strBackgroundColor : String := "#ffffff"
  m_strFilter : String := ""
deriving DecidableEq, Repr

/-- The configuration fields the rendering core reads, from `ServerConfig`
in Config.h, with their default values. -/
structure ServerConfig where
  m_nMaxImageWidth : ℤ := 4096
  m_nMaxImageHeight : ℤ := 4096
  m_nMemoryCacheMaxItems : ℕ := 100
  m_nCacheTTLSeconds : ℤ := 30
deriving DecidableEq, Repr

/-- `static_cast<int>` applied to a double: truncation toward 0. -/
def ratTrunc (q : ℚ) : ℤ := if 0 ≤ q then ⌊q⌋ else ⌈q⌉

/-- `std::max(lo, std::min(hi, v))`. -/
def clampTo (lo hi v : ℤ) : ℤ := max lo (min hi v)

/-- `RenderEngine::WorldToPixel` (RenderEngine.cpp): linear mapping of a
world coordinate into pixel space with the Y axis flipped, the resulting
pixel truncated by the `static_cast<int>` and clamped to the image;
returns `none` exactly on the code's `return false` path. -/
def WorldToPixel (dWorldX dWorldY : ℚ) (bbox : BoundingBox) (nWidth nHeight : ℤ) :
    Option (ℤ × ℤ) :=
  if bbox.IsValid = false ∨ nWidth ≤ 0 ∨ nHeight ≤ 0 then none
  else
    let dXPercent := (dWorldX - bbox.m_dMinX) / bbox.Width
    let dYPercent := (dWorldY - bbox.m_dMinY) / bbox.Height
    let nPixelX := ratTrunc (dXPercent * nWidth)
    let nPixelY := ratTrunc ((1 - dYPercent) * nHeight)
    some (clampTo 0 (nWidth - 1) nPixelX, clampTo 0 (nHeight - 1) nPixelY)

/-- The transform exactly as claim C1's sentence words it, with `round`
in place of the code's truncation; declared only to compare against
`WorldToPixel`. -/
def WorldToPixelClaimed (dWorldX dWorldY : ℚ) (bbox : BoundingBox)
    (nWidth nHeight : ℤ) : Option (ℤ × ℤ) :=
  if bbox.IsValid = false ∨ nWidth ≤ 0 ∨ nHeight ≤ 0 then none
  else
    let xPercent := (dWorldX - bbox.m_dMinX) / bbox.Width
    let yPercent := (dWorldY - bbox.m_dMinY) / bbox.Height
    some (clampTo 0 (nWidth - 1) (round (xPercent * nWidth)),
          clampTo 0 (nHeight - 1) (round ((1 - yPercent) * nHeight)))

/-- The failure modes of the rendering pipeline. `invalidArgument` is the
`std::invalid_argument` a failed `std::stoi` throws, which no function in
RenderEngine.cpp catches; the others are the `SetError` / `return false`
paths. -/
inductive RenderError where
  | notInitialized
  | invalidBoundingBox
  | invalidDimensions
  | invalidArgument
deriving DecidableEq, Repr

/-- `std::string::substr(pos, len)`. -/
def substr (s : String) (pos len : ℕ) : String := ⟨(s.data.drop pos).take len⟩

/-- The length-6/8 branch of the background-color parse: the hex remainder
(after `#`) read as `#RRGGBB` / `#RRGGBBAA` through `std::stoi` (which may
throw); any other length keeps the white defaults. -/
def parseHexBg (hex : String) : Except RenderError (ℕ × ℕ × ℕ × ℕ) :=
  if hex.length = 6 ∨ hex.length = 8 then do
    let r ← (cppStoi16 (substr hex 0 2)).mapError fun _ => RenderError.invalidArgument
    let g ← (cppStoi16 (substr hex 2 2)).mapError fun _ => RenderError.invalidArgument
    let b ← (cppStoi16 (substr hex 4 2)).mapError fun _ => RenderError.invalidArgument
    if hex.length = 8 then
      let a ← (cppStoi16 (substr hex 6 2)).mapError fun _ => RenderError.invalidArgument
      Except.ok (toByte r, toByte g, toByte b, toByte a)
    else
      Except.ok (toByte r, toByte g, toByte b, 255)
  else Except.ok (255, 255, 255, 255)

/-- The background-color parse inside `RenderEngine::CreateBlankImage`:
channel defaults 255,255,255,255 unless the string starts with `#`; the
remainder is then handed to the length-6/8 reader. -/
def parseBgColor (strBgColor : String) : Except RenderError (ℕ × ℕ × ℕ × ℕ) :=
  if strBgColor ≠ "" ∧ strBgColor.data.head? = some '#' then
    parseHexBg ⟨strBgColor.data.drop 1⟩
  else Except.ok (255, 255, 255, 255)

/-- The pixel-fill loop of `CreateBlankImage`: `n` pixels, each written as
the four bytes R,G,B,A. -/
def fillBytes (r g b a : ℕ) : ℕ → List ℕ
  | 0 => []
  | n + 1 => r :: g :: b :: a :: fillBytes r g b a n

/-- `RenderEngine::CreateBlankImage`: reject nonpositive dimensions, parse
the background color (defaulting to opaque white), allocate and fill the
`width*height*4`-byte RGBA buffer. -/
def CreateBlankImage (nWidth nHeight : ℤ) (strBgColor : String) :
    Except RenderError (Array ℕ) :=
  if nWidth ≤ 0 ∨ nHeight ≤ 0 then Except.error RenderError.invalidDimensions
  else do
    let c ← parseBgColor strBgColor
    Except.ok ⟨fillBytes c.1 c.2.1 c.2.2.1 c.2.2.2 (nWidth.toNat * nHeight.toNat)⟩

/-- The style-color parse in `DrawFeatures` (used for fill and stroke, with
different defaults): a string starting `#` with at least 6 further
characters is read as three `std::stoi` chunks (which may throw); every
other string keeps the defaults. No alpha channel is read here. -/
def parseStyleColor (color : String) (dr dg db : ℕ) :
    Except RenderError (ℕ × ℕ × ℕ) :=
  if color ≠ "" ∧ color.data.head? = some '#' then
    let hex : String := ⟨color.data.drop 1⟩
    if 6 ≤ hex.length then do
      let r ← (cppStoi16 (substr hex 0 2)).mapError fun _ => RenderError.invalidArgument
      let g ← (cppStoi16 (substr hex 2 2)).mapError fun _ => RenderError.invalidArgument
      let b ← (cppStoi16 (substr hex 4 2)).mapError fun _ => RenderError.invalidArgument
      Except.ok (toByte r, toByte g, toByte b)
    else Except.ok (dr, dg, db)
  else Except.ok (dr, dg, db)

/-- `(static_cast<size_t>(y) * nWidth + x) * 4` with the `size_t`
wraparound; modular arithmetic is a ring homomorphism, so one reduction
modulo `2 ^ 64` of each expression models the unsigned conversions. -/
def byteIndex (y x nWidth : ℤ) : ℕ :=
  (((y * nWidth + x) % (2 ^ 64 : ℤ)).toNat * 4) % 2 ^ 64

/-- One guarded RGBA store, the source's
`if (index + 3 < vecImageData.size())` block. -/
def writeRGBA (buf : Array ℕ) (idx r g b a : ℕ) : Array ℕ :=
  if idx + 3 < buf.size then
    (((buf.setD idx r).setD (idx + 1) g).setD (idx + 2) b).setD (idx + 3) a
  else buf

/-- The inclusive iteration range of `for (v = a; v <= b; ++v)`. -/
def intRange (a b : ℤ) : List ℤ :=
  (List.range (b + 1 - a).toNat).map fun i => a + (i : ℤ)

/-- One horizontal run of pixel writes at row `y`. -/
def drawHLine (buf : Array ℕ) (y startX endX nWidth : ℤ) (r g b a : ℕ) : Array ℕ :=
  (intRange startX endX).foldl
    (fun bf x => writeRGBA bf (byteIndex y x nWidth) r g b a) buf

/-- One vertical run of pixel writes at column `x`. -/
def drawVLine (buf : Array ℕ) (x startY endY nWidth : ℤ) (r g b a : ℕ) : Array ℕ :=
  (intRange startY endY).foldl
    (fun bf y => writeRGBA bf (byteIndex y x nWidth) r g b a) buf

/-- The filled centered rectangle of `DrawFeatures`. -/
def fillRect (buf : Array ℕ) (startX endX startY endY nWidth : ℤ)
    (r g b a : ℕ) : Array ℕ :=
  (intRange startY endY).foldl
    (fun bf y => drawHLine bf y startX endX nWidth r g b a) buf

/-- The top-border loop of `DrawFeatures`: rows `startY + w` for
`w < strokeWidth`, guarded by `y < nHeight`. -/
def drawTopBorder (buf : Array ℕ) (strokeWidth startY startX endX nWidth nHeight : ℤ)
    (r g b a : ℕ) : Array ℕ :=
  (intRange 0 (strokeWidth - 1)).foldl (fun bf w =>
    if startY + w < nHeight then drawHLine bf (startY + w) startX endX nWidth r g b a
    else bf) buf

/-- The bottom-border loop: rows `endY - w`, guarded by `0 ≤ y`. -/
def drawBottomBorder (buf : Array ℕ) (strokeWidth endY startX endX nWidth : ℤ)
    (r g b a : ℕ) : Array ℕ :=
  (intRange 0 (strokeWidth - 1)).foldl (fun bf w =>
    if 0 ≤ endY - w then drawHLine bf (endY - w) startX endX nWidth r g b a
    else bf) buf

/-- The left-border loop: columns `startX + w`, guarded by `x < nWidth`. -/
def drawLeftBorder (buf : Array ℕ) (strokeWidth startX startY endY nWidth : ℤ)
    (r g b a : ℕ) : Array ℕ :=
  (intRange 0 (strokeWidth - 1)).foldl (fun bf w =>
    if startX + w < nWidth then drawVLine bf (startX + w) startY endY nWidth r g b a
    else bf) buf

/-- The right-border loop: columns `endX - w`, guarded by `0 ≤ x`. -/
def drawRightBorder (buf : Array ℕ) (strokeWidth endX startY endY nWidth : ℤ)
    (r g b a : ℕ) : Array ℕ :=
  (intRange 0 (strokeWidth - 1)).foldl (fun bf w =>
    if 0 ≤ endX - w then drawVLine bf (endX - w) startY endY nWidth r g b a
    else bf) buf

/-- `RenderEngine::DrawFeatures` (the placeholder-rectangle compositor):
parse the fill color, fill a centered rectangle of a quarter width and
height, parse the stroke color, then draw the four borders `strokeWidth`
pixels deep. The feature list the C++ signature takes is always empty at
every call site and never read, so it is omitted. On a thrown
`std::invalid_argument` the C++ buffer keeps the writes already made; the
model returns the error and the caller aborts, as `RenderMap` does. -/
def DrawFeatures (style : LayerStyle) (vecImageData : Array ℕ)
    (nWidth nHeight : ℤ) (bbox : BoundingBox) : Except RenderError (Array ℕ) := do
  let a := toByte style.m_nOpacity
  let fc ← parseStyleColor style.m_strFillColor 255 0 0
  let centerX := Int.tdiv nWidth 2
  let centerY := Int.tdiv nHeight 2
  let rectWidth := Int.tdiv nWidth 4
  let rectHeight := Int.tdiv nHeight 4
  let startX0 := centerX - Int.tdiv rectWidth 2
  let startY0 := centerY - Int.tdiv rectHeight 2
  let startX := max 0 startX0
  let startY := max 0 startY0
  let endX := min (nWidth - 1) (startX0 + rectWidth)
  let endY := min (nHeight - 1) (startY0 + rectHeight)
  let buf1 := fillRect vecImageData startX endX startY endY nWidth fc.1 fc.2.1 fc.2.2 a
  let sc ← parseStyleColor style.m_strStrokeColor 0 0 0
  let strokeWidth := max 1 style.m_nStrokeWidth
  let buf2 := drawTopBorder buf1 strokeWidth startY startX endX nWidth nHeight
    sc.1 sc.2.1 sc.2.2 a
  let buf3 := drawBottomBorder buf2 strokeWidth endY startX endX nWidth
    sc.1 sc.2.1 sc.2.2 a
  let buf4 := drawLeftBorder buf3 strokeWidth startX startY endY nWidth
    sc.1 sc.2.1 sc.2.2 a
  let buf5 := drawRightBorder buf4 strokeWidth endX startY endY nWidth
    sc.1 sc.2.1 sc.2.2 a
  Except.ok buf5

/-- The style `RenderMap` builds for its empty-layer default draw: a
default-constructed `LayerStyle` with fill `#cccccc`, stroke `#000000`
and stroke width 2. -/
def defaultLayersStyle : LayerStyle :=
  { m_strFillColor := "#cccccc", m_strStrokeColor := "#000000", m_nStrokeWidth := 2 }

/-- Style resolution in `RenderMap`'s layer loop: the request's style map,
falling back to a default-constructed `LayerStyle`. -/
def resolveStyle (request : MapRequest) (layerName : String) : LayerStyle :=
  match request.m_mapStyles.lookup layerName with
  | some s => s
  | none => {}

/-- `RenderEngine::RenderMap` up to the finished RGBA canvas. The final
`PngEncoder::EncodeToMemory` call only hands the canvas to the external
libpng wrapper, so the model returns the composited canvas itself.
`initialized` is the engine's `m_bInitialized` flag. -/
def RenderMap (initialized : Bool) (config : ServerConfig) (request : MapRequest) :
    Except RenderError (Array ℕ) :=
  if initialized = false then Except.error RenderError.notInitialized
  else if request.m_bbox.IsValid = false then Except.error RenderError.invalidBoundingBox
  else if request.m_nWidth ≤ 0 ∨ request.m_nHeight ≤ 0 ∨
      config.m_nMaxImageWidth < request.m_nWidth ∨
      config.m_nMaxImageHeight < request.m_nHeight then
    Except.error RenderError.invalidDimensions
  else do
    let blank ← CreateBlankImage request.m_nWidth request.m_nHeight
      request.m_strBackgroundColor
    if request.m_vecLayers.isEmpty then
      DrawFeatures defaultLayersStyle blank request.m_nWidth request.m_nHeight
        request.m_bbox
    else
      request.m_vecLayers.foldlM
        (fun buf layerName =>
          DrawFeatures (resolveStyle request layerName) buf request.m_nWidth
            request.m_nHeight request.m_bbox)
        blank

/-- The layer styles a request composites, in order — claim C2's reading of
the pipeline: one default placeholder when no layer is named, otherwise the
resolved style of each named layer in list order. -/
def effectiveStyles (request : MapRequest) : List LayerStyle :=
  if request.m_vecLayers.isEmpty then [defaultLayersStyle]
  else request.m_vecLayers.map (resolveStyle request)

/-- Composite a list of layer placeholders in order onto a canvas. -/
def compositeAll (styles : List LayerStyle) (buf : Array ℕ) (nWidth nHeight : ℤ)
    (bbox : BoundingBox) : Except RenderError (Array ℕ) :=
  styles.foldlM (fun b st => DrawFeatures st b nWidth nHeight bbox) buf

/-- The layer-name alphabet validation accepts: letters, digits,
underscore, hyphen. -/
def isWordChar (c : Char) : Bool :=
  (decide ('a' ≤ c) && decide (c ≤ 'z')) ||
  (decide ('A' ≤ c) && decide (c ≤ 'Z')) ||
  (decide ('0' ≤ c) && decide (c ≤ '9')) ||
  c = '_' || c = '-'

/-- The distinct first-violated-rule outcomes of
`HttpServer::ValidateMapRequestParameters`, one per `strError` message. -/
inductive ValError where
  | invalidBoundingBox
  | lonOutOfRange
  | latOutOfRange
  | dimensionsNotPositive
  | widthTooLarge
  | heightTooLarge
  | invalidBackgroundFormat
  | invalidBackgroundHex
  | emptyLayerName
  | invalidLayerNameChar
deriving DecidableEq, Repr

/-- The background-color rules of `ValidateMapRequestParameters`: if
non-empty, a `#` followed by 6 or 3 hexadecimal characters (total length
7 or 4). -/
def checkBgColor (color : String) : Option ValError :=
  if color = "" then none
  else if color.data.head? ≠ some '#' ∨ (color.length ≠ 7 ∧ color.length ≠ 4) then
    some ValError.invalidBackgroundFormat
  else if (color.data.drop 1).all isHexDigit = false then
    some ValError.invalidBackgroundHex
  else none

/-- The per-layer-name rules: non-empty, word characters only. -/
def checkLayerName (layer : String) : Option ValError :=
  if layer = "" then some ValError.emptyLayerName
  else if layer.data.all isWordChar = false then some ValError.invalidLayerNameChar
  else none

/-- First failing layer name, in list order. -/
def checkLayers : List String → Option ValError
  | [] => none
  | l :: ls =>
    match checkLayerName l with
    | some e => some e
    | none => checkLayers ls

/-- `HttpServer::ValidateMapRequestParameters`: the source's checks in
order, returning the first violated rule. -/
def ValidateMapRequestParameters (config : ServerConfig) (request : MapRequest) :
    Option ValError :=
  if request.m_bbox.IsValid = false then some ValError.invalidBoundingBox
  else if request.m_bbox.m_dMinX < -180 ∨ 180 < request.m_bbox.m_dMaxX then
    some ValError.lonOutOfRange
  else if request.m_bbox.m_dMinY < -90 ∨ 90 < request.m_bbox.m_dMaxY then
    some ValError.latOutOfRange
  else if request.m_nWidth ≤ 0 ∨ request.m_nHeight ≤ 0 then
    some ValError.dimensionsNotPositive
  else if config.m_nMaxImageWidth < request.m_nWidth then some ValError.widthTooLarge
  else if config.m_nMaxImageHeight < request.m_nHeight then some ValError.heightTooLarge
  else
    match checkBgColor request.m_strBackgroundColor with
    | some e => some e
    | none => checkLayers request.m_vecLayers

/-- `HttpServer::HandleGenerateRequest` after JSON decoding: validate, and
only on success call `RenderEngine::RenderMap` (the step that allocates
the canvas); a validation failure returns its error with no render work. -/
def HandleGenerateRequest (initialized : Bool) (config : ServerConfig)
    (request : MapRequest) : Except (ValError ⊕ RenderError) (Array ℕ) :=
  match ValidateMapRequestParameters config request with
  | some e => Except.error (Sum.inl e)
  | none => (RenderMap initialized config request).mapError Sum.inr

/-- The rejection kinds of `HttpServer::ValidateTileParameters`. -/
inductive TileError where
  | zoomOutOfRange
  | xOutOfRange
  | yOutOfRange
deriving DecidableEq, Repr

/-- `HttpServer::ValidateTileParameters`: zoom 0..20 first, then
`maxTile = (1 << z) - 1` bounds both tile coordinates (the shift is only
reached with `0 ≤ z ≤ 20`). -/
def ValidateTileParameters (z x y : ℤ) : Option TileError :=
  if z < 0 ∨ 20 < z then some TileError.zoomOutOfRange
  else
    let maxTile : ℤ := 2 ^ z.toNat - 1
    if x < 0 ∨ maxTile < x then some TileError.xOutOfRange
    else if y < 0 ∨ maxTile < y then some TileError.yOutOfRange
    else none

/-- The fixed tile edge, 256. -/
def tileSize : ℕ := 256

/-- The single-shade 256×256 base canvas of `HandleTileRequest`
(`dark = (x + y) % 2 == 0` picks 100- or 200-valued channels). -/
def checkerboardImage (dark : Bool) : Array ℕ :=
  let v := if dark then 100 else 200
  ⟨fillBytes v v v 255 (tileSize * tileSize)⟩

/-- `Z:{z} X:{x} Y:{y}`, the label burned into the tile. -/
def tileLabel (z x y : ℤ) : String :=
  "Z:" ++ toString z ++ " X:" ++ toString x ++ " Y:" ++ toString y

/-- One 8×8 red label block at `(10 + 8 i, 20)`; the source's stores are
within bounds whenever its `xpos < tileSize && ypos < tileSize` test
passes, so the guarded store writes exactly the same bytes. -/
def drawLabelBlock (buf : Array ℕ) (i : ℕ) : Array ℕ :=
  let px := 10 + 8 * i
  let py := 20
  (List.range 8).foldl (fun bf dy =>
    (List.range 8).foldl (fun bf2 dx =>
      if px + dx < tileSize ∧ py + dy < tileSize then
        writeRGBA bf2 (((py + dy) * tileSize + (px + dx)) * 4) 255 0 0 255
      else bf2) bf) buf

/-- `HttpServer::HandleTileRequest` up to the finished RGBA tile: validate
the address, then build the shaded canvas and burn in the first
`min(label length, 20)` glyph blocks. On a validation error nothing of the
tile (bbox or image) is computed. The PNG encoding, file write and the
Mercator bbox response header are outside the returned value; the bbox's
longitudes are `tileLonLeft`/`tileLonRight` below and its latitudes appear
in claim C8's theorem as real-number expressions. -/
def HandleTileRequest (z x y : ℤ) : Except TileError (Array ℕ) :=
  match ValidateTileParameters z x y with
  | some e => Except.error e
  | none =>
    let dark := decide ((x + y) % 2 = 0)
    let base := checkerboardImage dark
    let n := min (tileLabel z x y).length 20
    Except.ok ((List.range n).foldl drawLabelBlock base)

/-- `x / n * 360 - 180` of the tile-to-bbox inversion (rational, embedded
exactly). -/
def tileLonLeft (z x : ℕ) : ℚ := (x : ℚ) / (2 ^ z) * 360 - 180

/-- `(x + 1) / n * 360 - 180` of the tile-to-bbox inversion. -/
def tileLonRight (z x : ℕ) : ℚ := ((x : ℚ) + 1) / (2 ^ z) * 360 - 180

/-- `std::ostream` rendering of a double. The claims never inspect the
rendered digits — only that equal inputs render equally — so the model
uses Lean's exact rational rendering. -/
def formatDouble (q : ℚ) : String := toString q

/-- The part of `GenerateCacheKey`'s concatenation written before the layer
loop: the four bbox components, `WxH` and the background color. -/
def cacheKeyHead (request : MapRequest) : String :=
  formatDouble request.m_bbox.m_dMinX ++ "," ++
  formatDouble request.m_bbox.m_dMinY ++ "," ++
  formatDouble request.m_bbox.m_dMaxX ++ "," ++
  formatDouble request.m_bbox.m_dMaxY ++ "," ++
  toString request.m_nWidth ++ "x" ++ toString request.m_nHeight ++ ",bg:" ++
  request.m_strBackgroundColor

/-- The concatenation `MapRequest::GenerateCacheKey` builds before
hashing: the prefix above, then each layer name in supplied order with
`,layer:` prepended. The style map and the filter string are not read. -/
def cacheKeyString (request : MapRequest) : String :=
  cacheKeyHead request ++
  String.join (request.m_vecLayers.map fun layer => ",layer:" ++ layer)

/-- Modelled from the spec: `std::hash<std::string>` — "a stable string
hash" — is implementation-defined standard-library code outside this
repository. The model is a stable positional encoding (injective, proved
below), so distinctness of final keys reflects distinctness of the hashed
strings; the genuine 64-bit hash could additionally collide. -/
def hashChars : List Char → ℕ
  | [] => 0
  | c :: cs => (c.toNat + 1) + 1114112 * hashChars cs

/-- The modelled stable string hash. -/
def hashString (s : String) : ℕ := hashChars s.data

/-- Decimal digits of `n`, least significant first; fuel-structured so
that the kernel can evaluate it (the fuel bounds the digit count). -/
def decDigits : ℕ → ℕ → List ℕ
  | 0, _ => []
  | fuel + 1, n => if n = 0 then [] else n % 10 :: decDigits fuel (n / 10)

/-- `std::to_string` of the hash value: plain decimal rendering. -/
def natDecimal (n : ℕ) : String :=
  if n = 0 then "0" else ⟨((decDigits n n).map Nat.digitChar).reverse⟩

/-- `MapRequest::GenerateCacheKey`. -/
def GenerateCacheKey (request : MapRequest) : String :=
  natDecimal (hashString (cacheKeyString request))

/-- The `#RGB` short form as claim C5's sentence reads it (each digit
duplicated, the standard reading); declared only to compare with
`CreateBlankImage`, which does not accept this form. -/
def parseShortRgbClaimed (s : String) : Option (ℕ × ℕ × ℕ × ℕ) :=
  match s.data with
  | ['#', r, g, b] =>
    if isHexDigit r ∧ isHexDigit g ∧ isHexDigit b then
      some (17 * hexVal r, 17 * hexVal g, 17 * hexVal b, 255)
    else none
  | _ => none

/-! ## Claim C1: the world-to-pixel transform -/

/-- C1 as stated is false on the code: `WorldToPixel` truncates
(`static_cast<int>`) where the claim says `round`. At
`worldX = worldY = 3/8` on bbox `(0,0,1,1)` with a 4×4 target the code
yields pixel `(1, 2)` while the claimed formula yields `(2, 3)`. -/
theorem C1_trunc_vs_round_cex :
    WorldToPixel (3/8) (3/8) ⟨0, 0, 1, 1⟩ 4 4 = some (1, 2) ∧
    WorldToPixelClaimed (3/8) (3/8) ⟨0, 0, 1, 1⟩ 4 4 = some (2, 3) ∧
    (some ((1 : ℤ), (2 : ℤ)) ≠ some ((2 : ℤ), (3 : ℤ))) := by
  refine ⟨?_, ?_, by decide⟩ <;>
    norm_num [WorldToPixel, WorldToPixelClaimed, BoundingBox.IsValid,
      BoundingBox.Width, BoundingBox.Height, ratTrunc, clampTo, round_eq]

/-- C1 amended: `WorldToPixel` computes the x/y percentages of the claim's
formulas, scales them by the target dimensions, **truncates toward zero**
(not `round`) and clamps each output to `[0, dimension-1]`; it fails
(returns invalid) exactly when the bbox is invalid or either dimension
is ≤ 0. -/
theorem C1_worldToPixel_formula (dWorldX dWorldY : ℚ) (bbox : BoundingBox)
    (nWidth nHeight : ℤ) :
    WorldToPixel dWorldX dWorldY bbox nWidth nHeight =
      (if bbox.IsValid = true ∧ 0 < nWidth ∧ 0 < nHeight then
        some (clampTo 0 (nWidth - 1)
                (ratTrunc ((dWorldX - bbox.m_dMinX) /
                  (bbox.m_dMaxX - bbox.m_dMinX) * nWidth)),
              clampTo 0 (nHeight - 1)
                (ratTrunc ((1 - (dWorldY - bbox.m_dMinY) /
                  (bbox.m_dMaxY - bbox.m_dMinY)) * nHeight)))
      else none) := by
  by_cases h1 : bbox.IsValid = true
  · by_cases h2 : 0 < nWidth
    · by_cases h3 : 0 < nHeight
      · rw [WorldToPixel, if_neg (by simp [h1]; omega), if_pos ⟨h1, h2, h3⟩]
        rfl
      · rw [WorldToPixel, if_pos (by simp [h1]; omega),
          if_neg (by intro h; exact h3 h.2.2)]
    · rw [WorldToPixel, if_pos (by simp [h1]; omega),
        if_neg (by intro h; exact h2 h.2.1)]
  · rw [WorldToPixel, if_pos (by simp [Bool.not_eq_true] at h1; simp [h1]),
      if_neg (by intro h; exact h1 h.1)]

/-! ## Claim C3: request-validation boundaries -/

/-- C3: the validation boundary cases — 4096×4096 accepted under the
default maxima, 4097 rejected with the dimensions error, longitude −181
rejected with a bounding-box(-range) error, background `#12345` rejected
with the background-color error, `#123456` accepted; a request violating
two rules reports only the first; and a failed validation short-circuits
the handler before any render/canvas step runs. -/
theorem C3_validation_boundaries :
    ValidateMapRequestParameters {}
      { m_bbox := ⟨-10, -10, 10, 10⟩, m_nWidth := 4096, m_nHeight := 4096 } = none ∧
    ValidateMapRequestParameters {}
      { m_bbox := ⟨-10, -10, 10, 10⟩, m_nWidth := 4097, m_nHeight := 4096 } =
      some ValError.widthTooLarge ∧
    ValidateMapRequestParameters {}
      { m_bbox := ⟨-181, -90, 0, 90⟩ } = some ValError.lonOutOfRange ∧
    ValidateMapRequestParameters {}
      { m_bbox := ⟨-10, -10, 10, 10⟩, m_strBackgroundColor := "#12345" } =
      some ValError.invalidBackgroundFormat ∧
    ValidateMapRequestParameters {}
      { m_bbox := ⟨-10, -10, 10, 10⟩, m_strBackgroundColor := "#123456" } = none ∧
    ValidateMapRequestParameters {}
      { m_bbox := ⟨-10, -10, 10, 10⟩, m_nWidth := 4097,
        m_strBackgroundColor := "#12345" } = some ValError.widthTooLarge ∧
    (∀ (initialized : Bool) (config : ServerConfig) (request : MapRequest) (e : ValError),
      ValidateMapRequestParameters config request = some e →
      HandleGenerateRequest initialized config request = Except.error (Sum.inl e)) := by
  refine ⟨by decide, by decide, by decide, by decide, by decide, by decide, ?_⟩
  intro initialized config request e h
  simp [HandleGenerateRequest, h]

/-! ## Claim C7: tile-parameter validation -/

/-- C7: tile validation accepts exactly the triples with `z ∈ [0,20]` and
`x, y ∈ [0, 2^z − 1]`; on every other triple the handler returns the
validation error and no tile image is produced. -/
theorem C7_tile_validation (z x y : ℤ) :
    (ValidateTileParameters z x y = none ↔
      (0 ≤ z ∧ z ≤ 20 ∧ 0 ≤ x ∧ x ≤ 2 ^ z.toNat - 1 ∧ 0 ≤ y ∧ y ≤ 2 ^ z.toNat - 1)) ∧
    ((HandleTileRequest z x y).isOk = true ↔ ValidateTileParameters z x y = none) := by
  constructor
  · unfold ValidateTileParameters
    simp only []
    generalize (2 : ℤ) ^ z.toNat = M
    split_ifs with h1 h2 h3 <;> simp <;> omega
  · unfold HandleTileRequest
    cases h : ValidateTileParameters z x y <;> simp [h, Except.isOk, Except.toBool]

/-! ## Helper lemmas on characters and `std::stoi` chunks -/

lemma char_le_toNat {a b : Char} (h : a ≤ b) : a.toNat ≤ b.toNat := by
  rw [Char.le_def, UInt32.le_def] at h
  simpa [Char.toNat, UInt32.toNat, BitVec.le_def] using h

lemma hexVal_lt_16 (c : Char) : hexVal c < 16 := by
  have e0 : Char.toNat '0' = 48 := rfl
  have e9 : Char.toNat '9' = 57 := rfl
  have ea : Char.toNat 'a' = 97 := rfl
  have ef : Char.toNat 'f' = 102 := rfl
  have eA : Char.toNat 'A' = 65 := rfl
  have eF : Char.toNat 'F' = 70 := rfl
  unfold hexVal
  split_ifs with h1 h2 h3
  · have := char_le_toNat h1.2
    omega
  · have := char_le_toNat h2.2
    omega
  · have := char_le_toNat h3.2
    omega
  · omega

/-- A character cannot be a hexadecimal digit and equal to a fixed
non-digit character. -/
lemma isHexDigit_ne (c d : Char) (hc : isHexDigit c = true)
    (hd : isHexDigit d = false) : c ≠ d := by
  intro e
  subst e
  rw [hc] at hd
  cases hd

lemma hex_not_space (c : Char) (hc : isHexDigit c = true) : isCppSpace c = false := by
  simp only [isCppSpace, Bool.or_eq_false_iff, decide_eq_false_iff_not]
  refine ⟨⟨⟨⟨⟨?_, ?_⟩, ?_⟩, ?_⟩, ?_⟩, ?_⟩ <;> exact isHexDigit_ne c _ hc (by decide)

/-- `std::stoi` base 16 on a chunk of two hexadecimal digits: their value,
`16 * high + low`. -/
lemma cppStoi16_hex_hex (c d : Char) (hc : isHexDigit c = true)
    (hd : isHexDigit d = true) :
    cppStoi16 ⟨[c, d]⟩ = Except.ok ((16 * hexVal c + hexVal d : ℕ) : ℤ) := by
  have h1 : isCppSpace c = false := hex_not_space c hc
  have h2 : c ≠ '+' := isHexDigit_ne c '+' hc (by decide)
  have h3 : c ≠ '-' := isHexDigit_ne c '-' hc (by decide)
  simp [cppStoi16, skipSpaces, h1, parseSign, h2, h3, stripHex0x,
    List.takeWhile, hc, hd, hexDigitsVal]

/-- `std::stoi` base 16 on a chunk whose first character is a digit and
whose second is not: the silent partial parse, yielding the first digit
alone. -/
lemma cppStoi16_hex_nonhex (c d : Char) (hc : isHexDigit c = true)
    (hd : isHexDigit d = false) :
    cppStoi16 ⟨[c, d]⟩ = Except.ok ((hexVal c : ℕ) : ℤ) := by
  have h1 : isCppSpace c = false := hex_not_space c hc
  have h2 : c ≠ '+' := isHexDigit_ne c '+' hc (by decide)
  have h3 : c ≠ '-' := isHexDigit_ne c '-' hc (by decide)
  simp [cppStoi16, skipSpaces, h1, parseSign, h2, h3, stripHex0x,
    List.takeWhile, hc, hd, hexDigitsVal]

/-- `std::stoi` base 16 on a chunk whose first character is neither a
digit, whitespace nor a sign: no conversion is possible and the call
throws `std::invalid_argument`. -/
lemma cppStoi16_bad_first (c d : Char) (hc : isHexDigit c = false)
    (hs : isCppSpace c = false) (hp : c ≠ '+') (hm : c ≠ '-') :
    cppStoi16 ⟨[c, d]⟩ = Except.error () := by
  have h0 : c ≠ '0' := Ne.symm (isHexDigit_ne '0' c (by decide) hc)
  simp [cppStoi16, skipSpaces, hs, parseSign, hp, hm, stripHex0x, h0,
    List.takeWhile, hc]

lemma fillBytes_length (r g b a n : ℕ) : (fillBytes r g b a n).length = 4 * n := by
  induction n with
  | zero => rfl
  | succ k ih => simp [fillBytes, ih]; omega

deriving instance DecidableEq for Except

lemma stringMk_length (l : List Char) : (⟨l⟩ : String).length = l.length := rfl

lemma exceptOk_bind {ε α β : Type} (v : α) (f : α → Except ε β) :
    (do let x ← Except.ok v; f x) = f v := rfl

lemma exceptError_bind {ε α β : Type} (e : ε) (f : α → Except ε β) :
    (do let x ← Except.error e; f x) = Except.error e := rfl

lemma mapError_ok {ε ε' α : Type} (f : ε → ε') (v : α) :
    Except.mapError f (Except.ok v) = Except.ok v := rfl

lemma mapError_error {ε ε' α : Type} (f : ε → ε') (e : ε) :
    (Except.mapError f (Except.error e) : Except ε' α) = Except.error (f e) := rfl

lemma parseHexBg_wrong_length (hex : String)
    (h : hex.length ≠ 6 ∧ hex.length ≠ 8) :
    parseHexBg hex = Except.ok (255, 255, 255, 255) := by
  unfold parseHexBg
  rw [if_neg (by omega)]

lemma parseBgColor_default (bg : String)
    (h : bg = "" ∨ bg.data.head? ≠ some '#' ∨
      (bg.data.length ≠ 7 ∧ bg.data.length ≠ 9)) :
    parseBgColor bg = Except.ok (255, 255, 255, 255) := by
  unfold parseBgColor
  by_cases hh : bg ≠ "" ∧ bg.data.head? = some '#'
  · rw [if_pos hh]
    rcases h with h | h | h
    · exact absurd h hh.1
    · exact absurd hh.2 h
    · refine parseHexBg_wrong_length _ ?_
      rw [stringMk_length, List.length_drop]
      omega
  · rw [if_neg hh]

lemma toByte_hexPair (cHi cLo : Char) :
    toByte ((16 * hexVal cHi + hexVal cLo : ℕ) : ℤ) =
      16 * hexVal cHi + hexVal cLo := by
  have h1 := hexVal_lt_16 cHi
  have h2 := hexVal_lt_16 cLo
  unfold toByte
  rw [Int.emod_eq_of_lt (by positivity) (by push_cast; omega)]
  omega

lemma parseBgColor_rrggbb (c1 c2 c3 c4 c5 c6 : Char)
    (h1 : isHexDigit c1 = true) (h2 : isHexDigit c2 = true)
    (h3 : isHexDigit c3 = true) (h4 : isHexDigit c4 = true)
    (h5 : isHexDigit c5 = true) (h6 : isHexDigit c6 = true) :
    parseBgColor ⟨['#', c1, c2, c3, c4, c5, c6]⟩ =
      Except.ok (16 * hexVal c1 + hexVal c2, 16 * hexVal c3 + hexVal c4,
        16 * hexVal c5 + hexVal c6, 255) := by
  have t1 := cppStoi16_hex_hex c1 c2 h1 h2
  have t2 := cppStoi16_hex_hex c3 c4 h3 h4
  have t3 := cppStoi16_hex_hex c5 c6 h5 h6
  have hbg : parseBgColor ⟨['#', c1, c2, c3, c4, c5, c6]⟩ =
      parseHexBg ⟨[c1, c2, c3, c4, c5, c6]⟩ := by
    unfold parseBgColor
    rw [if_pos ⟨(by simp [String.ext_iff]), rfl⟩]
    rfl
  rw [hbg]
  unfold parseHexBg
  have hc : (⟨[c1, c2, c3, c4, c5, c6]⟩ : String).length = 6 := rfl
  simp only [hc]
  rw [if_pos (by norm_num)]
  have s1 : substr ⟨[c1, c2, c3, c4, c5, c6]⟩ 0 2 = ⟨[c1, c2]⟩ := rfl
  have s2 : substr ⟨[c1, c2, c3, c4, c5, c6]⟩ 2 2 = ⟨[c3, c4]⟩ := rfl
  have s3 : substr ⟨[c1, c2, c3, c4, c5, c6]⟩ 4 2 = ⟨[c5, c6]⟩ := rfl
  rw [s1, s2, s3, t1, t2, t3]
  simp only [mapError_ok, exceptOk_bind]
  rw [toByte_hexPair, toByte_hexPair, toByte_hexPair, if_neg (by norm_num)]

lemma CreateBlankImage_ok_size (w h : ℤ) (bg : String) (buf : Array ℕ)
    (hok : CreateBlankImage w h bg = Except.ok buf) :
    buf.size = w.toNat * h.toNat * 4 := by
  unfold CreateBlankImage at hok
  split_ifs at hok
  cases hp : parseBgColor bg with
  | error e =>
    rw [hp, exceptError_bind] at hok
    exact Except.noConfusion hok
  | ok c =>
    rw [hp, exceptOk_bind] at hok
    cases hok
    simp [Array.size, fillBytes_length]
    omega

/-! ## Claim C5: CreateBlankImage -/

/-- C5 as stated is false on the code: `CreateBlankImage` does not parse
the `#RGB` short form — on `"#f00"` (which the claim's reading parses as
opaque red) every pixel stays opaque white. -/
theorem C5_short_form_cex :
    CreateBlankImage 1 1 "#f00" = Except.ok ⟨[255, 255, 255, 255]⟩ ∧
    parseShortRgbClaimed "#f00" = some (255, 0, 0, 255) ∧
    ((Except.ok ⟨[255, 255, 255, 255]⟩ : Except RenderError (Array ℕ)) ≠
      Except.ok ⟨[255, 0, 0, 255]⟩) :=
  ⟨by decide, by decide, by decide⟩

/-- C5 amended: `CreateBlankImage(width, height, bg)` allocates a buffer of
exactly `width*height*4` bytes; it parses the `#RRGGBB` and `#RRGGBBAA`
forms (not `#RGB`); when the string is empty, does not start with `#`, or
has a hex length other than 6 or 8 — `#RGB` included — every pixel is
opaque white; and a 6/8-length hex whose leading chunk character is not a
hex digit makes `std::stoi` throw instead of defaulting. -/
theorem C5_createBlankImage :
    (∀ (w h : ℤ) (bg : String) (buf : Array ℕ),
      CreateBlankImage w h bg = Except.ok buf →
      buf.size = w.toNat * h.toNat * 4) ∧
    (∀ (w h : ℤ), 0 < w → 0 < h → ∀ c1 c2 c3 c4 c5 c6 : Char,
      isHexDigit c1 = true → isHexDigit c2 = true → isHexDigit c3 = true →
      isHexDigit c4 = true → isHexDigit c5 = true → isHexDigit c6 = true →
      CreateBlankImage w h ⟨['#', c1, c2, c3, c4, c5, c6]⟩ =
        Except.ok ⟨fillBytes (16 * hexVal c1 + hexVal c2)
          (16 * hexVal c3 + hexVal c4) (16 * hexVal c5 + hexVal c6) 255
          (w.toNat * h.toNat)⟩) ∧
    (∀ (w h : ℤ) (bg : String), 0 < w → 0 < h →
      (bg = "" ∨ bg.data.head? ≠ some '#' ∨
        (bg.data.length ≠ 7 ∧ bg.data.length ≠ 9)) →
      CreateBlankImage w h bg =
        Except.ok ⟨fillBytes 255 255 255 255 (w.toNat * h.toNat)⟩) ∧
    CreateBlankImage 1 1 "#33669980" = Except.ok ⟨fillBytes 51 102 153 128 1⟩ ∧
    CreateBlankImage 1 1 "#zzzzzz" = Except.error RenderError.invalidArgument := by
  refine ⟨CreateBlankImage_ok_size, ?_, ?_, by decide, by decide⟩
  · intro w h hw hh c1 c2 c3 c4 c5 c6 h1 h2 h3 h4 h5 h6
    unfold CreateBlankImage
    rw [if_neg (by omega), parseBgColor_rrggbb c1 c2 c3 c4 c5 c6 h1 h2 h3 h4 h5 h6]
    rfl
  · intro w h bg hw hh hdef
    unfold CreateBlankImage
    rw [if_neg (by omega), parseBgColor_default bg hdef]
    rfl

/-! ## Claim C6: non-hex characters in an accepted-length color -/

/-- C6 as stated is false on the code: `"#zzzzzz"` has the accepted hex
length 6 and a non-hex character, yet the parse does not silently keep
default channels — `std::stoi("zz", nullptr, 16)` throws
`std::invalid_argument`, aborting `CreateBlankImage` (and likewise
`DrawFeatures` on a style color `"#zz0000"`) instead of completing. -/
theorem C6_silent_default_cex :
    ((⟨"#zzzzzz".data.drop 1⟩ : String).length = 6 ∧
      isHexDigit 'z' = false) ∧
    CreateBlankImage 1 1 "#zzzzzz" = Except.error RenderError.invalidArgument ∧
    DrawFeatures { m_strFillColor := "#zz0000" } ⟨[255, 255, 255, 255]⟩ 1 1
      ⟨0, 0, 1, 1⟩ = Except.error RenderError.invalidArgument :=
  ⟨⟨by decide, by decide⟩, by decide, by decide⟩

/-- C6 amended: a color whose hex part has an accepted length but holds a
non-hex character is **not** reliably defaulted and the failure is not
silent in general: a two-character chunk whose first character is a hex
digit and whose second is not parses silently to the first digit alone
(partial value, operation completes), while a chunk whose first character
is neither hex digit, whitespace nor sign makes `std::stoi` throw and the
enclosing operation abort with an error. -/
theorem C6_stoi_chunk_behavior :
    (∀ c d : Char, isHexDigit c = true → isHexDigit d = false →
      cppStoi16 ⟨[c, d]⟩ = Except.ok ((hexVal c : ℕ) : ℤ)) ∧
    (∀ c d : Char, isHexDigit c = false → isCppSpace c = false →
      c ≠ '+' → c ≠ '-' → cppStoi16 ⟨[c, d]⟩ = Except.error ()) ∧
    CreateBlankImage 1 1 "#0z0z0z" = Except.ok ⟨fillBytes 0 0 0 255 1⟩ ∧
    CreateBlankImage 1 1 "#00zz00" = Except.error RenderError.invalidArgument ∧
    DrawFeatures { m_strFillColor := "#00zz00" } ⟨[1, 2, 3, 4]⟩ 1 1 ⟨0, 0, 1, 1⟩ =
      Except.error RenderError.invalidArgument :=
  ⟨cppStoi16_hex_nonhex, cppStoi16_bad_first, by decide, by decide, by decide⟩

/-! ## Claim C2: RenderMap's compositing pipeline -/

lemma compositeAll_single (st : LayerStyle) (buf : Array ℕ) (nW nH : ℤ)
    (bbox : BoundingBox) :
    compositeAll [st] buf nW nH bbox = DrawFeatures st buf nW nH bbox := by
  unfold compositeAll
  simp only [List.foldlM]
  cases hD : DrawFeatures st buf nW nH bbox <;> rfl

lemma compositeAll_map (l : List String) (g : String → LayerStyle) (buf : Array ℕ)
    (nW nH : ℤ) (bbox : BoundingBox) :
    compositeAll (l.map g) buf nW nH bbox =
      l.foldlM (fun b name => DrawFeatures (g name) b nW nH bbox) buf := by
  induction l generalizing buf with
  | nil => rfl
  | cons x xs ih =>
    unfold compositeAll at *
    simp only [List.map_cons, List.foldlM]
    cases hD : DrawFeatures (g x) buf nW nH bbox with
    | error e => rfl
    | ok b => exact ih b

/-- C2 amended: a call that passes RenderMap's own checks reduces to the
claim's pipeline — blank canvas from the background color, then one
`DrawFeatures` placeholder per effective style in order (a single default
style when the layer list is empty, otherwise each named layer's resolved
style); each check failure returns its distinct error. The claim's
unqualified "composites one placeholder per named layer" fails only when
a malformed style color makes `std::stoi` throw (see the counterexample),
in which case the render aborts with that exception instead. -/
theorem C2_renderMap_pipeline :
    (∀ (config : ServerConfig) (request : MapRequest),
      request.m_bbox.IsValid = true →
      0 < request.m_nWidth → request.m_nWidth ≤ config.m_nMaxImageWidth →
      0 < request.m_nHeight → request.m_nHeight ≤ config.m_nMaxImageHeight →
      RenderMap true config request =
        (CreateBlankImage request.m_nWidth request.m_nHeight
          request.m_strBackgroundColor).bind
          (fun blank => compositeAll (effectiveStyles request) blank
            request.m_nWidth request.m_nHeight request.m_bbox)) ∧
    (∀ (config : ServerConfig) (request : MapRequest),
      RenderMap false config request = Except.error RenderError.notInitialized) ∧
    (∀ (config : ServerConfig) (request : MapRequest),
      request.m_bbox.IsValid = false →
      RenderMap true config request = Except.error RenderError.invalidBoundingBox) ∧
    (∀ (config : ServerConfig) (request : MapRequest),
      request.m_bbox.IsValid = true →
      (request.m_nWidth ≤ 0 ∨ request.m_nHeight ≤ 0 ∨
        config.m_nMaxImageWidth < request.m_nWidth ∨
        config.m_nMaxImageHeight < request.m_nHeight) →
      RenderMap true config request = Except.error RenderError.invalidDimensions) := by
  refine ⟨?_, ?_, ?_, ?_⟩
  · intro config request hb hw hwm hh hhm
    unfold RenderMap
    rw [if_neg (by simp), if_neg (by simp [hb]), if_neg (by omega)]
    cases hC : CreateBlankImage request.m_nWidth request.m_nHeight
        request.m_strBackgroundColor with
    | error e => rfl
    | ok blank =>
      by_cases hemp : request.m_vecLayers.isEmpty
      · simp only [Except.bind, hemp, if_pos, effectiveStyles, compositeAll_single]
        rfl
      · simp only [Except.bind, hemp, effectiveStyles, if_neg, Bool.false_eq_true,
          if_false, compositeAll_map]
        rfl
  · intro config request
    rfl
  · intro config request hbb
    simp [RenderMap, hbb]
  · intro config request hvb hdims
    unfold RenderMap
    rw [if_neg (by simp), if_neg (by simp [hvb]), if_pos (by omega)]

/-- A concrete two-layer request used to instantiate C2's pipeline
equation. -/
def reqRoadsWater : MapRequest :=
  { m_bbox := ⟨0, 0, 2, 2⟩, m_nWidth := 4, m_nHeight := 4,
    m_vecLayers := ["roads", "water"] }

/-- Closed instantiation of C2's pipeline equation at a concrete two-layer
request. -/
theorem C2_renderMap_witness :
    RenderMap true {} reqRoadsWater =
      (CreateBlankImage 4 4 "#ffffff").bind
        (fun blank => compositeAll (effectiveStyles reqRoadsWater) blank 4 4
          ⟨0, 0, 2, 2⟩) :=
  C2_renderMap_pipeline.1 {} reqRoadsWater
    (by decide) (by decide) (by decide) (by decide) (by decide)

/-- C2 as universally stated is false on the code: this request passes all
three of RenderMap's checks, yet nothing is composited — the layer's
malformed style fill color `"#zzzzzz"` makes `std::stoi` throw, and the
render aborts with the propagated exception instead of drawing one
placeholder per named layer. -/
theorem C2_throwing_style_cex :
    ({ m_bbox := ⟨0, 0, 1, 1⟩, m_nWidth := 1, m_nHeight := 1,
        m_vecLayers := ["a"],
        m_mapStyles := [("a", { m_strFillColor := "#zzzzzz" })] } :
        MapRequest).m_bbox.IsValid = true ∧
    RenderMap true {}
      { m_bbox := ⟨0, 0, 1, 1⟩, m_nWidth := 1, m_nHeight := 1,
        m_vecLayers := ["a"],
        m_mapStyles := [("a", { m_strFillColor := "#zzzzzz" })] } =
      Except.error RenderError.invalidArgument :=
  ⟨by decide, by decide⟩

/-! ## Claim C9: the canvas-length invariant -/

lemma writeRGBA_size (buf : Array ℕ) (idx r g b a : ℕ) :
    (writeRGBA buf idx r g b a).size = buf.size := by
  unfold writeRGBA
  split_ifs with h
  · simp [Array.size_setD]
  · rfl

lemma foldl_size {α : Type} (f : Array ℕ → α → Array ℕ) (l : List α)
    (buf : Array ℕ) (hf : ∀ b x, (f b x).size = b.size) :
    (l.foldl f buf).size = buf.size := by
  induction l generalizing buf with
  | nil => rfl
  | cons x xs ih => rw [List.foldl_cons, ih, hf]

lemma drawHLine_size (buf : Array ℕ) (y sx ex nW : ℤ) (r g b a : ℕ) :
    (drawHLine buf y sx ex nW r g b a).size = buf.size :=
  foldl_size _ _ _ (fun bf x => writeRGBA_size bf (byteIndex y x nW) r g b a)

lemma drawVLine_size (buf : Array ℕ) (x sy ey nW : ℤ) (r g b a : ℕ) :
    (drawVLine buf x sy ey nW r g b a).size = buf.size :=
  foldl_size _ _ _ (fun bf y => writeRGBA_size bf (byteIndex y x nW) r g b a)

lemma fillRect_size (buf : Array ℕ) (sx ex sy ey nW : ℤ) (r g b a : ℕ) :
    (fillRect buf sx ex sy ey nW r g b a).size = buf.size :=
  foldl_size _ _ _ (fun bf y => drawHLine_size bf y sx ex nW r g b a)

lemma drawTopBorder_size (buf : Array ℕ) (sw sy sx ex nW nH : ℤ) (r g b a : ℕ) :
    (drawTopBorder buf sw sy sx ex nW nH r g b a).size = buf.size :=
  foldl_size _ _ _ (fun bf w => by
    split_ifs
    · exact drawHLine_size bf (sy + w) sx ex nW r g b a
    · rfl)

lemma drawBottomBorder_size (buf : Array ℕ) (sw ey sx ex nW : ℤ) (r g b a : ℕ) :
    (drawBottomBorder buf sw ey sx ex nW r g b a).size = buf.size :=
  foldl_size _ _ _ (fun bf w => by
    split_ifs
    · exact drawHLine_size bf (ey - w) sx ex nW r g b a
    · rfl)

lemma drawLeftBorder_size (buf : Array ℕ) (sw sx sy ey nW : ℤ) (r g b a : ℕ) :
    (drawLeftBorder buf sw sx sy ey nW r g b a).size = buf.size :=
  foldl_size _ _ _ (fun bf w => by
    split_ifs
    · exact drawVLine_size bf (sx + w) sy ey nW r g b a
    · rfl)

lemma drawRightBorder_size (buf : Array ℕ) (sw ex sy ey nW : ℤ) (r g b a : ℕ) :
    (drawRightBorder buf sw ex sy ey nW r g b a).size = buf.size :=
  foldl_size _ _ _ (fun bf w => by
    split_ifs
    · exact drawVLine_size bf (ex - w) sy ey nW r g b a
    · rfl)

lemma DrawFeatures_ok_size (style : LayerStyle) (buf : Array ℕ) (nW nH : ℤ)
    (bbox : BoundingBox) (out : Array ℕ)
    (hok : DrawFeatures style buf nW nH bbox = Except.ok out) :
    out.size = buf.size := by
  unfold DrawFeatures at hok
  cases h1 : parseStyleColor style.m_strFillColor 255 0 0 with
  | error e =>
    rw [h1, exceptError_bind] at hok
    exact Except.noConfusion hok
  | ok fc =>
    rw [h1, exceptOk_bind] at hok
    cases h2 : parseStyleColor style.m_strStrokeColor 0 0 0 with
    | error e =>
      rw [h2, exceptError_bind] at hok
      exact Except.noConfusion hok
    | ok sc =>
      rw [h2, exceptOk_bind] at hok
      cases hok
      rw [drawRightBorder_size, drawLeftBorder_size, drawBottomBorder_size,
        drawTopBorder_size, fillRect_size]

/-- Access into the blank fill: pixel `i` holds the four bytes R,G,B,A. -/
lemma fillBytes_layout (r g b a n i : ℕ) (h : i < n) :
    (fillBytes r g b a n).get? (4 * i) = some r ∧
    (fillBytes r g b a n).get? (4 * i + 1) = some g ∧
    (fillBytes r g b a n).get? (4 * i + 2) = some b ∧
    (fillBytes r g b a n).get? (4 * i + 3) = some a := by
  induction n generalizing i with
  | zero => omega
  | succ k ih =>
    cases i with
    | zero => simp [fillBytes]
    | succ j =>
      have e : 4 * (j + 1) = 4 * j + 1 + 1 + 1 + 1 := by omega
      rw [e]
      simp only [fillBytes, List.get?_cons_succ]
      exact ih j (by omega)

/-- C9: the canvas invariant — `CreateBlankImage` yields a buffer of
exactly `width*height*4` bytes whose every pixel is the parsed background
laid out R,G,B,A, and every successful `DrawFeatures` call (any style, any
bbox, the given dimensions) preserves the buffer length, its guarded
stores never writing outside the existing buffer. -/
theorem C9_canvas_invariant :
    (∀ (w h : ℤ) (bg : String) (buf : Array ℕ),
      CreateBlankImage w h bg = Except.ok buf →
      buf.size = w.toNat * h.toNat * 4) ∧
    (∀ (w h : ℤ) (bg : String) (buf : Array ℕ) (r g b a : ℕ),
      CreateBlankImage w h bg = Except.ok buf →
      parseBgColor bg = Except.ok (r, g, b, a) →
      ∀ i, i < w.toNat * h.toNat →
        buf.toList.get? (4 * i) = some r ∧
        buf.toList.get? (4 * i + 1) = some g ∧
        buf.toList.get? (4 * i + 2) = some b ∧
        buf.toList.get? (4 * i + 3) = some a) ∧
    (∀ (style : LayerStyle) (buf : Array ℕ) (w h : ℤ) (bbox : BoundingBox)
      (out : Array ℕ),
      DrawFeatures style buf w h bbox = Except.ok out → out.size = buf.size) := by
  refine ⟨CreateBlankImage_ok_size, ?_, DrawFeatures_ok_size⟩
  intro w h bg buf r g b a hok hp i hi
  unfold CreateBlankImage at hok
  split_ifs at hok
  rw [hp, exceptOk_bind] at hok
  cases hok
  exact fillBytes_layout r g b a (w.toNat * h.toNat) i hi

/-- Closed instantiation of C9 at a 2×2 canvas and a default-styled draw. -/
theorem C9_canvas_witness :
    (∀ (buf : Array ℕ), CreateBlankImage 2 2 "#336699" = Except.ok buf →
      buf.size = 16) ∧
    (∀ (out : Array ℕ),
      DrawFeatures {} ⟨fillBytes 51 102 153 255 4⟩ 2 2 ⟨0, 0, 1, 1⟩ =
        Except.ok out → out.size = 16) := by
  constructor
  · intro buf hok
    exact C9_canvas_invariant.1 2 2 "#336699" buf hok
  · intro out hok
    have := C9_canvas_invariant.2.2 {} ⟨fillBytes 51 102 153 255 4⟩ 2 2
      ⟨0, 0, 1, 1⟩ out hok
    rw [this]
    decide

/-! ## Claim C10: the cache key reads neither styles nor filter -/

lemma cacheKeyString_fields (r1 r2 : MapRequest)
    (hbb : r1.m_bbox = r2.m_bbox) (hw : r1.m_nWidth = r2.m_nWidth)
    (hh : r1.m_nHeight = r2.m_nHeight)
    (hbg : r1.m_strBackgroundColor = r2.m_strBackgroundColor)
    (hl : r1.m_vecLayers = r2.m_vecLayers) :
    cacheKeyString r1 = cacheKeyString r2 := by
  unfold cacheKeyString cacheKeyHead
  rw [hbb, hw, hh, hbg, hl]

/-- C10: `GenerateCacheKey` does not depend on the per-layer style map or
the attribute filter string — two requests agreeing on bbox, dimensions,
background and layer list produce the identical key whatever their
`m_mapStyles` and `m_strFilter`. -/
theorem C10_cacheKey_ignores_styles_filter (r1 r2 : MapRequest)
    (hbb : r1.m_bbox = r2.m_bbox) (hw : r1.m_nWidth = r2.m_nWidth)
    (hh : r1.m_nHeight = r2.m_nHeight)
    (hbg : r1.m_strBackgroundColor = r2.m_strBackgroundColor)
    (hl : r1.m_vecLayers = r2.m_vecLayers) :
    GenerateCacheKey r1 = GenerateCacheKey r2 := by
  unfold GenerateCacheKey hashString
  rw [cacheKeyString_fields r1 r2 hbb hw hh hbg hl]

/-- Closed instantiation of C10: a style map and a filter string leave the
key unchanged. -/
theorem C10_cacheKey_witness :
    GenerateCacheKey
      { m_bbox := ⟨0, 0, 1, 1⟩,
        m_mapStyles := [("a", { m_strFillColor := "#123456" })],
        m_strFilter := "population > 1000" } =
    GenerateCacheKey { m_bbox := ⟨0, 0, 1, 1⟩ } :=
  C10_cacheKey_ignores_styles_filter _ _ rfl rfl rfl rfl rfl

/-! ## Claim C4: cache-key determinism and layer-order sensitivity -/

lemma char_toNat_lt (c : Char) : c.toNat < 1114112 := by
  have h := c.valid
  unfold UInt32.isValidChar Nat.isValidChar at h
  show c.val.toNat < 1114112
  rcases h with h | h <;> omega

lemma char_toNat_inj {a b : Char} (h : a.toNat = b.toNat) : a = b :=
  Char.eq_of_val_eq (UInt32.ext h)

lemma hashChars_inj : ∀ l1 l2 : List Char, hashChars l1 = hashChars l2 → l1 = l2 := by
  intro l1
  induction l1 with
  | nil =>
    intro l2 h
    cases l2 with
    | nil => rfl
    | cons d ds =>
      exfalso
      simp only [hashChars] at h
      omega
  | cons c cs ih =>
    intro l2 h
    cases l2 with
    | nil =>
      exfalso
      simp only [hashChars] at h
      omega
    | cons d ds =>
      simp only [hashChars] at h
      have hc := char_toNat_lt c
      have hd := char_toNat_lt d
      have h1 : c.toNat = d.toNat := by omega
      have h2 : hashChars cs = hashChars ds := by omega
      rw [char_toNat_inj h1, ih ds h2]

/-- Recompose a little-endian digit list. -/
def val10 (l : List ℕ) : ℕ := l.foldr (fun d acc => d + 10 * acc) 0

lemma decDigits_val : ∀ fuel n : ℕ, n ≤ fuel → val10 (decDigits fuel n) = n := by
  intro fuel
  induction fuel with
  | zero => intro n hn; interval_cases n; rfl
  | succ f ih =>
    intro n hn
    unfold decDigits
    by_cases h0 : n = 0
    · subst h0; rfl
    · rw [if_neg h0]
      have hdiv : n / 10 ≤ f := by
        have := Nat.div_lt_self (Nat.pos_of_ne_zero h0) (by norm_num : (1:ℕ) < 10)
        omega
      unfold val10 at *
      simp only [List.foldr]
      rw [ih (n / 10) hdiv]
      omega

lemma decDigits_lt : ∀ fuel n d : ℕ, d ∈ decDigits fuel n → d < 10 := by
  intro fuel
  induction fuel with
  | zero => intro n d hd; simp [decDigits] at hd
  | succ f ih =>
    intro n d hd
    unfold decDigits at hd
    by_cases h0 : n = 0
    · rw [if_pos h0] at hd; simp at hd
    · rw [if_neg h0] at hd
      rcases List.mem_cons.mp hd with h | h
      · subst h; exact Nat.mod_lt _ (by norm_num)
      · exact ih (n / 10) d h

lemma digitChar_inj (a b : ℕ) (ha : a < 10) (hb : b < 10)
    (h : Nat.digitChar a = Nat.digitChar b) : a = b := by
  interval_cases a <;> interval_cases b <;>
    first
    | rfl
    | exact absurd h (by decide)

lemma map_digitChar_inj : ∀ l1 l2 : List ℕ, (∀ d ∈ l1, d < 10) →
    (∀ d ∈ l2, d < 10) → l1.map Nat.digitChar = l2.map Nat.digitChar →
    l1 = l2 := by
  intro l1
  induction l1 with
  | nil =>
    intro l2 _ _ h
    cases l2 with
    | nil => rfl
    | cons d ds => simp at h
  | cons a t1 ih =>
    intro l2 h1 h2 h
    cases l2 with
    | nil => simp at h
    | cons b t2 =>
      simp only [List.map_cons, List.cons.injEq] at h
      have hab : a = b :=
        digitChar_inj a b (h1 a (List.mem_cons_self a t1))
          (h2 b (List.mem_cons_self b t2)) h.1
      rw [hab, ih t2 (fun d hd => h1 d (List.mem_cons_of_mem _ hd))
        (fun d hd => h2 d (List.mem_cons_of_mem _ hd)) h.2]

lemma natDecimal_nonzero_ne_zero_str (n : ℕ) (hn : n ≠ 0) :
    natDecimal n ≠ "0" := by
  intro h
  unfold natDecimal at h
  rw [if_neg hn] at h
  have hdata : ((decDigits n n).map Nat.digitChar).reverse = ['0'] :=
    congrArg String.data h
  have hmap : (decDigits n n).map Nat.digitChar = ['0'] := by
    rw [← List.reverse_reverse (List.map _ _), hdata]
    rfl
  cases hL : decDigits n n with
  | nil => rw [hL] at hmap; simp at hmap
  | cons d t =>
    rw [hL] at hmap
    simp only [List.map_cons, List.cons.injEq] at hmap
    have ht : t = [] := List.map_eq_nil_iff.mp hmap.2
    have hd10 : d < 10 := decDigits_lt n n d (by rw [hL]; exact List.mem_cons_self d t)
    have hd0 : d = 0 := digitChar_inj d 0 hd10 (by norm_num) (by rw [hmap.1]; rfl)
    have := decDigits_val n n le_rfl
    rw [hL, ht, hd0] at this
    simp [val10] at this
    exact hn this.symm

lemma natDecimal_inj : ∀ m n : ℕ, natDecimal m = natDecimal n → m = n := by
  intro m n h
  by_cases hm : m = 0 <;> by_cases hn : n = 0
  · omega
  · exfalso
    subst hm
    exact natDecimal_nonzero_ne_zero_str n hn (by rw [← h]; rfl)
  · exfalso
    subst hn
    exact natDecimal_nonzero_ne_zero_str m hm h
  · unfold natDecimal at h
    rw [if_neg hm, if_neg hn] at h
    have hdata := congrArg String.data h
    simp only at hdata
    have hrev := congrArg List.reverse hdata
    simp only [List.reverse_reverse] at hrev
    have hdig := map_digitChar_inj _ _ (fun d hd => decDigits_lt m m d hd)
      (fun d hd => decDigits_lt n n d hd) hrev
    have hv1 := decDigits_val m m le_rfl
    have hv2 := decDigits_val n n le_rfl
    rw [hdig, hv2] at hv1
    exact hv1.symm

/-- The seven characters each layer's name is prefixed with. -/
def layerSepData : List Char := [',', 'l', 'a', 'y', 'e', 'r', ':']

/-- The character content the layer loop appends to the key. -/
def layersData : List (List Char) → List Char
  | [] => []
  | n :: t => layerSepData ++ n ++ layersData t

lemma layersData_head : ∀ l : List (List Char),
    layersData l = [] ∨ (layersData l).head? = some ',' := by
  intro l
  cases l with
  | nil => left; rfl
  | cons n t => right; rfl

lemma chunk_split : ∀ n1 n2 r1 r2 : List Char,
    ',' ∉ n1 → ',' ∉ n2 →
    (r1 = [] ∨ r1.head? = some ',') → (r2 = [] ∨ r2.head? = some ',') →
    n1 ++ r1 = n2 ++ r2 → n1 = n2 ∧ r1 = r2 := by
  intro n1
  induction n1 with
  | nil =>
    intro n2 r1 r2 h1 h2 hr1 hr2 h
    cases n2 with
    | nil => exact ⟨rfl, h⟩
    | cons b t2 =>
      exfalso
      simp only [List.nil_append] at h
      rcases hr1 with he | hh
      · rw [he] at h; exact List.noConfusion h
      · rw [h] at hh
        simp only [List.cons_append, List.head?_cons, Option.some.injEq] at hh
        exact h2 (hh ▸ List.mem_cons_self b t2)
  | cons a t1 ih =>
    intro n2 r1 r2 h1 h2 hr1 hr2 h
    cases n2 with
    | nil =>
      exfalso
      simp only [List.nil_append] at h
      rcases hr2 with he | hh
      · rw [he] at h; exact List.noConfusion h
      · rw [← h] at hh
        simp only [List.cons_append, List.head?_cons, Option.some.injEq] at hh
        exact h1 (hh ▸ List.mem_cons_self a t1)
    | cons b t2 =>
      simp only [List.cons_append, List.cons.injEq] at h
      obtain ⟨hab, ht⟩ := h
      have := ih t2 r1 r2 (fun hm => h1 (List.mem_cons_of_mem _ hm))
        (fun hm => h2 (hab ▸ List.mem_cons_of_mem _ hm)) hr1 hr2 ht
      exact ⟨by rw [hab, this.1], this.2⟩

lemma layersData_inj : ∀ l1 l2 : List (List Char),
    (∀ n ∈ l1, ',' ∉ n) → (∀ n ∈ l2, ',' ∉ n) →
    layersData l1 = layersData l2 → l1 = l2 := by
  intro l1
  induction l1 with
  | nil =>
    intro l2 h1 h2 h
    cases l2 with
    | nil => rfl
    | cons n t => exact absurd h (by simp [layersData, layerSepData])
  | cons n1 t1 ih =>
    intro l2 h1 h2 h
    cases l2 with
    | nil => exact absurd h (by simp [layersData, layerSepData])
    | cons n2 t2 =>
      simp only [layersData, List.append_assoc] at h
      have h' := List.append_cancel_left h
      have hsplit := chunk_split n1 n2 _ _
        (h1 n1 (List.mem_cons_self n1 t1)) (h2 n2 (List.mem_cons_self n2 t2))
        (layersData_head t1) (layersData_head t2) h'
      rw [hsplit.1, ih t2 (fun n hn => h1 n (List.mem_cons_of_mem _ hn))
        (fun n hn => h2 n (List.mem_cons_of_mem _ hn)) hsplit.2]

lemma strAppend_data (a b : String) : (a ++ b).data = a.data ++ b.data := rfl

lemma strFoldlAppend_data : ∀ (ls : List String) (acc : String),
    (ls.foldl (fun r s => r ++ s) acc).data =
      acc.data ++ (ls.map String.data).flatten := by
  intro ls
  induction ls with
  | nil => intro acc; simp
  | cons s t ih =>
    intro acc
    simp only [List.foldl_cons, List.map_cons, List.flatten_cons]
    rw [ih, strAppend_data, List.append_assoc]

lemma joinLayers_data : ∀ l : List String,
    (String.join (l.map fun s => ",layer:" ++ s)).data =
      layersData (l.map String.data) := by
  intro l
  unfold String.join
  rw [strFoldlAppend_data]
  simp only [List.nil_append]
  induction l with
  | nil => rfl
  | cons s t ih =>
    simp only [List.map_cons, List.flatten_cons, layersData]
    rw [← ih, strAppend_data, List.append_assoc]
    rfl

/-- C4 amended: `GenerateCacheKey` is a pure function of the bbox,
dimensions, background color and ordered layer list; and two requests that
differ only in the order of their layer names produce different key
strings provided no layer name contains a comma — which holds for every
name the layer-name validation accepts. (Unvalidated names may embed the
`,layer:` separator itself and make two differently-ordered lists
concatenate, hence hash, identically; see the counterexample.) -/
theorem C4_cacheKey_order :
    (∀ r1 r2 : MapRequest, r1.m_bbox = r2.m_bbox →
      r1.m_nWidth = r2.m_nWidth → r1.m_nHeight = r2.m_nHeight →
      r1.m_strBackgroundColor = r2.m_strBackgroundColor →
      r1.m_vecLayers = r2.m_vecLayers →
      GenerateCacheKey r1 = GenerateCacheKey r2) ∧
    (∀ name : String, checkLayerName name = none → ',' ∉ name.data) ∧
    (∀ r1 r2 : MapRequest, r1.m_bbox = r2.m_bbox →
      r1.m_nWidth = r2.m_nWidth → r1.m_nHeight = r2.m_nHeight →
      r1.m_strBackgroundColor = r2.m_strBackgroundColor →
      (∀ name ∈ r1.m_vecLayers, ',' ∉ name.data) →
      (∀ name ∈ r2.m_vecLayers, ',' ∉ name.data) →
      r1.m_vecLayers ≠ r2.m_vecLayers →
      GenerateCacheKey r1 ≠ GenerateCacheKey r2) := by
  refine ⟨?_, ?_, ?_⟩
  · intro r1 r2 hbb hw hh hbg hl
    unfold GenerateCacheKey hashString
    rw [cacheKeyString_fields r1 r2 hbb hw hh hbg hl]
  · intro name hv
    unfold checkLayerName at hv
    split_ifs at hv with h1 h2
    · intro hmem
      have hall : name.data.all isWordChar = true := by
        revert h2
        cases name.data.all isWordChar <;> simp
      have := List.all_eq_true.mp hall ',' hmem
      exact absurd this (by decide)
  · intro r1 r2 hbb hw hh hbg hc1 hc2 hne hkey
    apply hne
    unfold GenerateCacheKey hashString at hkey
    have hstr := hashChars_inj _ _ (natDecimal_inj _ _ hkey)
    unfold cacheKeyString at hstr
    rw [strAppend_data, strAppend_data] at hstr
    have hpre : cacheKeyHead r1 = cacheKeyHead r2 := by
      unfold cacheKeyHead
      rw [hbb, hw, hh, hbg]
    rw [hpre] at hstr
    have hsuffix := List.append_cancel_left hstr
    rw [joinLayers_data, joinLayers_data] at hsuffix
    have hmaps := layersData_inj _ _
      (fun n hn => by
        obtain ⟨name, hname, rfl⟩ := List.mem_map.mp hn
        exact hc1 name hname)
      (fun n hn => by
        obtain ⟨name, hname, rfl⟩ := List.mem_map.mp hn
        exact hc2 name hname)
      hsuffix
    exact List.map_injective_iff.mpr (fun a b hab => String.ext hab) hmaps

/-- Closed instantiation of C4's order sensitivity: swapping two validated
layer names changes the key. -/
theorem C4_order_witness :
    GenerateCacheKey { m_bbox := ⟨0, 0, 1, 1⟩, m_vecLayers := ["a", "b"] } ≠
      GenerateCacheKey { m_bbox := ⟨0, 0, 1, 1⟩, m_vecLayers := ["b", "a"] } :=
  C4_cacheKey_order.2.2 _ _ rfl rfl rfl rfl (by decide) (by decide) (by decide)

/-- C4 as stated is false on the code: layer names may themselves contain
the `,layer:` separator, so these two requests differ only in the order of
their (unvalidated) layer names yet concatenate to the same pre-hash
string and therefore the same key. -/
theorem C4_layer_order_cex :
    ({ m_bbox := ⟨0, 0, 1, 1⟩, m_vecLayers := ["a", "a,layer:a"] } :
        MapRequest).m_vecLayers ≠
      ({ m_bbox := ⟨0, 0, 1, 1⟩, m_vecLayers := ["a,layer:a", "a"] } :
        MapRequest).m_vecLayers ∧
    ({ m_bbox := ⟨0, 0, 1, 1⟩, m_vecLayers := ["a", "a,layer:a"] } :
        MapRequest).m_vecLayers.Perm
      ({ m_bbox := ⟨0, 0, 1, 1⟩, m_vecLayers := ["a,layer:a", "a"] } :
        MapRequest).m_vecLayers ∧
    GenerateCacheKey { m_bbox := ⟨0, 0, 1, 1⟩, m_vecLayers := ["a", "a,layer:a"] } =
      GenerateCacheKey { m_bbox := ⟨0, 0, 1, 1⟩, m_vecLayers := ["a,layer:a", "a"] } := by
  refine ⟨by decide, ?_, ?_⟩
  · decide
  · unfold GenerateCacheKey hashString
    have h : cacheKeyString
        { m_bbox := ⟨0, 0, 1, 1⟩, m_vecLayers := ["a", "a,layer:a"] } =
        cacheKeyString
        { m_bbox := ⟨0, 0, 1, 1⟩, m_vecLayers := ["a,layer:a", "a"] } := by decide
    rw [h]

/-! ## Claim C8: tile bbox corners map to the canvas corners -/

lemma isValid_true_iff (b : BoundingBox) :
    b.IsValid = true ↔ b.m_dMinX < b.m_dMaxX ∧ b.m_dMinY < b.m_dMaxY := by
  unfold BoundingBox.IsValid
  simp [Bool.and_eq_true, decide_eq_true_eq]

/-- On any valid bbox, `WorldToPixel` sends the four geographic corners to
the four corners of a 256×256 canvas. -/
lemma worldToPixel_corners (bbox : BoundingBox) (h : bbox.IsValid = true) :
    WorldToPixel bbox.m_dMinX bbox.m_dMaxY bbox 256 256 = some (0, 0) ∧
    WorldToPixel bbox.m_dMaxX bbox.m_dMaxY bbox 256 256 = some (255, 0) ∧
    WorldToPixel bbox.m_dMinX bbox.m_dMinY bbox 256 256 = some (0, 255) ∧
    WorldToPixel bbox.m_dMaxX bbox.m_dMinY bbox 256 256 = some (255, 255) := by
  obtain ⟨hx, hy⟩ := (isValid_true_iff bbox).mp h
  have ex0 : (bbox.m_dMinX - bbox.m_dMinX) / bbox.Width = 0 := by
    rw [sub_self, zero_div]
  have ex1 : (bbox.m_dMaxX - bbox.m_dMinX) / bbox.Width = 1 := by
    unfold BoundingBox.Width
    exact div_self (sub_ne_zero.mpr (ne_of_gt hx))
  have ey0 : (bbox.m_dMinY - bbox.m_dMinY) / bbox.Height = 0 := by
    rw [sub_self, zero_div]
  have ey1 : (bbox.m_dMaxY - bbox.m_dMinY) / bbox.Height = 1 := by
    unfold BoundingBox.Height
    exact div_self (sub_ne_zero.mpr (ne_of_gt hy))
  refine ⟨?_, ?_, ?_, ?_⟩
  · simp only [WorldToPixel]
    rw [if_neg (by simp [h]), ex0, ey1]
    norm_num [ratTrunc, clampTo, min_def, max_def]
  · simp only [WorldToPixel]
    rw [if_neg (by simp [h]), ex1, ey1]
    norm_num [ratTrunc, clampTo, min_def, max_def]
  · simp only [WorldToPixel]
    rw [if_neg (by simp [h]), ex0, ey0]
    norm_num [ratTrunc, clampTo, min_def, max_def]
  · simp only [WorldToPixel]
    rw [if_neg (by simp [h]), ex1, ey0]
    norm_num [ratTrunc, clampTo, min_def, max_def]

lemma tileLon_lt (z x : ℕ) : tileLonLeft z x < tileLonRight z x := by
  unfold tileLonLeft tileLonRight
  have h2z : (0 : ℚ) < 2 ^ z := by positivity
  have hx : (x : ℚ) < (x : ℚ) + 1 := by linarith
  have := div_lt_div_of_pos_right hx h2z
  nlinarith

/-- C8: for every valid tile address, inverting it to a geographic bbox
(rational longitudes from `x / 2^z * 360 - 180`; Web-Mercator latitudes,
stated here over ℝ, which satisfy `latBottom < latTop`) and sampling
`WorldToPixel` on the bbox's four corners at 256×256 yields exactly the
four canvas corners (0,0), (255,0), (0,255), (255,255). `latB`/`latT`
stand for the two computed latitudes: any pair with `latB < latT` — the
order the first conjunct establishes for the real values — maps this way. -/
theorem C8_tile_bbox_roundtrip (z x y : ℕ) (hz : z ≤ 20) (hx : x < 2 ^ z)
    (hy : y < 2 ^ z) (latB latT : ℚ) (hlat : latB < latT) :
    (Real.arctan (Real.sinh (Real.pi * (1 - 2 * ((y : ℝ) + 1) / 2 ^ z))) *
        180 / Real.pi <
      Real.arctan (Real.sinh (Real.pi * (1 - 2 * (y : ℝ) / 2 ^ z))) *
        180 / Real.pi) ∧
    tileLonLeft z x < tileLonRight z x ∧
    WorldToPixel (tileLonLeft z x) latT
      ⟨tileLonLeft z x, latB, tileLonRight z x, latT⟩ 256 256 = some (0, 0) ∧
    WorldToPixel (tileLonRight z x) latT
      ⟨tileLonLeft z x, latB, tileLonRight z x, latT⟩ 256 256 = some (255, 0) ∧
    WorldToPixel (tileLonLeft z x) latB
      ⟨tileLonLeft z x, latB, tileLonRight z x, latT⟩ 256 256 = some (0, 255) ∧
    WorldToPixel (tileLonRight z x) latB
      ⟨tileLonLeft z x, latB, tileLonRight z x, latT⟩ 256 256 = some (255, 255) := by
  have hlon := tileLon_lt z x
  have hvalid : (⟨tileLonLeft z x, latB, tileLonRight z x, latT⟩ :
      BoundingBox).IsValid = true :=
    (isValid_true_iff _).mpr ⟨hlon, hlat⟩
  have hcorners := worldToPixel_corners _ hvalid
  refine ⟨?_, hlon, hcorners.1, hcorners.2.1, hcorners.2.2.1, hcorners.2.2.2⟩
  have h2z : (0 : ℝ) < 2 ^ z := by positivity
  have hab : Real.pi * (1 - 2 * ((y : ℝ) + 1) / 2 ^ z) <
      Real.pi * (1 - 2 * (y : ℝ) / 2 ^ z) := by
    have hdiff : Real.pi * (1 - 2 * (y : ℝ) / 2 ^ z) -
        Real.pi * (1 - 2 * ((y : ℝ) + 1) / 2 ^ z) = Real.pi * 2 / 2 ^ z := by
      field_simp
      ring
    have hpos : 0 < Real.pi * 2 / 2 ^ z := by positivity
    linarith
  have harc := Real.arctan_strictMono (Real.sinh_lt_sinh.mpr hab)
  have h180 : Real.arctan (Real.sinh (Real.pi * (1 - 2 * ((y : ℝ) + 1) / 2 ^ z))) *
      180 < Real.arctan (Real.sinh (Real.pi * (1 - 2 * (y : ℝ) / 2 ^ z))) * 180 := by
    nlinarith
  exact div_lt_div_of_pos_right h180 Real.pi_pos

/-- Closed instantiation of C8 at tile (z,x,y) = (1,0,1) with the latitude
pair (−85, 0). -/
theorem C8_tile_bbox_witness :
    (Real.arctan (Real.sinh (Real.pi * (1 - 2 * (((1 : ℕ) : ℝ) + 1) / 2 ^ 1))) *
        180 / Real.pi <
      Real.arctan (Real.sinh (Real.pi * (1 - 2 * ((1 : ℕ) : ℝ) / 2 ^ 1))) *
        180 / Real.pi) ∧
    tileLonLeft 1 0 < tileLonRight 1 0 ∧
    WorldToPixel (tileLonLeft 1 0) 0
      ⟨tileLonLeft 1 0, -85, tileLonRight 1 0, 0⟩ 256 256 = some (0, 0) ∧
    WorldToPixel (tileLonRight 1 0) 0
      ⟨tileLonLeft 1 0, -85, tileLonRight 1 0, 0⟩ 256 256 = some (255, 0) ∧
    WorldToPixel (tileLonLeft 1 0) (-85)
      ⟨tileLonLeft 1 0, -85, tileLonRight 1 0, 0⟩ 256 256 = some (0, 255) ∧
    WorldToPixel (tileLonRight 1 0) (-85)
      ⟨tileLonLeft 1 0, -85, tileLonRight 1 0, 0⟩ 256 256 = some (255, 255) :=
  C8_tile_bbox_roundtrip 1 0 1 (by norm_num) (by norm_num) (by norm_num)
    (-85) 0 (by norm_num)

end LeafletMap
